import Mathlib

/-!
Verification of the watchtower CloudWatch log handler core
(`watchtower/__init__.py`), shallowly embedded in Lean.

The embedding models:
* the per-record message payload (`Msg`, mirroring the
  `dict(timestamp=..., message=...)` built in `CloudWatchLogHandler.emit`);
* the sort performed in `_submit_batch`
  (`sorted(batch, key=itemgetter('timestamp'), reverse=False)`);
* the per-stream worker loop `_dequeue_batch` (batch assembly with
  size/count/deadline bounds and message truncation);
* the retry loop and response handling of `_submit_batch`;
* the admission path `emit` and the lifecycle method `close`.

Machine/environment nondeterminism (queue timing, the remote API's
responses) is made an explicit input: the worker loop consumes a list of
"pull results" and the retry loop consumes a script of API outcomes.
-/

namespace Watchtower

/-- `CloudWatchLogHandler.EXTRA_MSG_PAYLOAD_SIZE = 26`: the fixed
per-record overhead added to each message's length. -/
def EXTRA_MSG_PAYLOAD_SIZE : Int := 26

/-- One CloudWatch log event, as built in `emit`:
`dict(timestamp=int(message.created * 1000), message=self.format(message))`.
Python's `len` on the message string counts its code points; the Lean
`String.length` plays that role. -/
structure Msg where
  timestamp : Int
  message : String
  deriving DecidableEq, Repr

/-- `s[:n]` for a natural bound: the first `n` characters of `s`. -/
def strTake (s : String) (n : Nat) : String := String.mk (s.data.take n)

/-- Python slicing `s[:k]` for an arbitrary integer `k`: a nonnegative `k`
keeps the first `k` characters (clamped at the length); a negative `k`
drops the last `-k` characters. -/
def pyStrTake (s : String) (k : Int) : String :=
  if k < 0 then strTake s ((s.length : Int) + k).toNat else strTake s k.toNat

lemma strTake_length (s : String) (n : Nat) : (strTake s n).length = min n s.length :=
  List.length_take n s.data

/-! ## The sort in `_submit_batch` (claim C2)

`_submit_batch` runs `sorted(batch, key=itemgetter('timestamp'),
reverse=False)`.  Python's `sorted` is a stable sort; any stable sort by
the same key computes the same list, so we embed it as a stable insertion
sort on the timestamp key. -/

/-- The comparison used by the sort in `_submit_batch`: order by the
`timestamp` field. -/
def tsLe (a b : Msg) : Prop := a.timestamp ≤ b.timestamp

instance : DecidableRel tsLe := fun a b =>
  inferInstanceAs (Decidable (a.timestamp ≤ b.timestamp))

instance : IsTotal Msg tsLe := ⟨fun a b => Int.le_total a.timestamp b.timestamp⟩

instance : IsTrans Msg tsLe := ⟨fun _ _ _ h1 h2 => le_trans h1 h2⟩

/-- `sorted(batch, key=itemgetter('timestamp'), reverse=False)` from
`_submit_batch`, embedded as a stable sort on the timestamp key. -/
def sortByTimestamp (batch : List Msg) : List Msg :=
  List.insertionSort tsLe batch

lemma filter_ts_orderedInsert (t : Int) (a : Msg) (l : List Msg) :
    (List.orderedInsert tsLe a l).filter (fun m => m.timestamp == t)
      = ((a :: l).filter (fun m => m.timestamp == t)) := by
  induction l with
  | nil => rfl
  | cons b l ih =>
    by_cases h : tsLe a b
    · rw [List.orderedInsert, if_pos h]
    · rw [List.orderedInsert, if_neg h]
      have hba : b.timestamp < a.timestamp := by
        have := lt_of_not_le h
        exact this
      have hne : ¬(a.timestamp = t ∧ b.timestamp = t) := by
        rintro ⟨ha, hb⟩
        rw [ha, hb] at hba
        exact lt_irrefl t hba
      by_cases ha : a.timestamp = t <;> by_cases hb : b.timestamp = t
      · exact absurd ⟨ha, hb⟩ hne
      · simp [List.filter_cons, ih, ha, hb]
      · simp [List.filter_cons, ih, ha, hb]
      · simp [List.filter_cons, ih, ha, hb]

lemma filter_ts_insertionSort (t : Int) (l : List Msg) :
    (sortByTimestamp l).filter (fun m => m.timestamp == t)
      = l.filter (fun m => m.timestamp == t) := by
  induction l with
  | nil => rfl
  | cons a l ih =>
    rw [sortByTimestamp, List.insertionSort, filter_ts_orderedInsert]
    simp only [List.filter_cons]
    rw [← sortByTimestamp, ih]

/-- C2: For every batch, the list handed to the remote API by
`_submit_batch` is sorted by timestamp in non-decreasing order, it is a
permutation of the input batch, and records with equal timestamps keep
their relative order from the input batch (stability, stated as
preservation of the sublist of records carrying any fixed timestamp). -/
theorem submitted_batch_sorted_and_stable (batch : List Msg) :
    (sortByTimestamp batch).Pairwise (fun a b => a.timestamp ≤ b.timestamp) ∧
    List.Perm (sortByTimestamp batch) batch ∧
    ∀ t : Int, (sortByTimestamp batch).filter (fun m => m.timestamp == t)
      = batch.filter (fun m => m.timestamp == t) :=
  ⟨List.sorted_insertionSort tsLe batch,
   List.perm_insertionSort tsLe batch,
   fun t => filter_ts_insertionSort t batch⟩

/-! ## The per-stream worker loop `_dequeue_batch` (claims C1, C3, C4)

The worker pulls items from its stream's queue.  An item is either a
record dict or one of the integer sentinels `END = 1` / `FLUSH = 2`. -/

/-- An item of a stream's queue. -/
inductive QItem where
  | record (m : Msg)
  | flush
  | endSig
  deriving DecidableEq, Repr

/-- `size(_msg)` from `_dequeue_batch`:
`(len(_msg["message"]) if isinstance(_msg, dict) else 1) + EXTRA_MSG_PAYLOAD_SIZE`. -/
def msgSize (m : Msg) : Int := (m.message.length : Int) + EXTRA_MSG_PAYLOAD_SIZE

/-- `size` applied to an arbitrary queue item (a sentinel is not a dict,
so its `size` is `1 + 26`). -/
def qsize : QItem → Int
  | .record m => msgSize m
  | .flush => 1 + EXTRA_MSG_PAYLOAD_SIZE
  | .endSig => 1 + EXTRA_MSG_PAYLOAD_SIZE

/-- `sum(map(size, cur_batch))` over a batch of record dicts. -/
def batchSize (b : List Msg) : Int := (b.map msgSize).sum

/-- `max_message_body_size = max_message_size - EXTRA_MSG_PAYLOAD_SIZE`
(line 391 of `_dequeue_batch`). -/
def maxMessageBodySize (maxMessageSize : Int) : Int :=
  maxMessageSize - EXTRA_MSG_PAYLOAD_SIZE

/-- `truncate(_msg2)` from `_dequeue_batch`: slices the message body to
`_msg2["message"][:max_message_body_size]` (and emits a truncation
warning, recorded by the caller `pullProcessRec`). -/
def truncateMsg (maxMessageSize : Int) (m : Msg) : Msg :=
  { m with message := pyStrTake m.message (maxMessageBodySize maxMessageSize) }

/-- Lines 409–411 of `_dequeue_batch`: after a successful `my_queue.get`,
`if size(msg) > max_message_body_size: msg = truncate(msg)`.  Returns the
(possibly truncated) record together with whether the truncation warning
was emitted. -/
def pullProcessRec (maxMessageSize : Int) (m : Msg) : Msg × Bool :=
  if msgSize m > maxMessageBodySize maxMessageSize
  then (truncateMsg maxMessageSize m, true)
  else (m, false)

/-- The same check applied to an arbitrary pulled item.  On a sentinel
(`END`/`FLUSH`) whose `size` (27) exceeds `max_message_body_size`,
Python's `truncate` raises `TypeError` (item assignment on an `int`),
which would kill the worker thread; that crash is modelled as `none`. -/
def pullProcess (maxMessageSize : Int) : QItem → Option QItem
  | .record m => some (.record (pullProcessRec maxMessageSize m).1)
  | it => if qsize it > maxMessageBodySize maxMessageSize then none else some it

/-- The environment of one iteration of the inner `while True` loop of
`_dequeue_batch`: what `my_queue.get` returned (`none` models the
`queue.Empty` timeout) and whether `time.time() >= cur_batch_deadline`
held at the break-condition check. -/
structure Pull where
  item : Option QItem
  deadlineHit : Bool
  deriving DecidableEq, Repr

/-- The inner `while True` loop of `_dequeue_batch`.  `batch`, `bsz`,
`bcnt` mirror `cur_batch`, `cur_batch_size`, `cur_batch_msg_count`.
Returns the batch passed to `_submit_batch`, the value of `msg` at the
break (the leftover item seeding the next round), and the unconsumed
pulls; `none` models the worker crashing in `truncate` on a sentinel. -/
def batchRound (mms mbs mbc : Int) :
    List Pull → List Msg → Int → Int → Option (List Msg × Option QItem × List Pull)
  | [], batch, _, _ => some (batch, none, [])
  | p :: rest, batch, bsz, bcnt =>
    match p.item with
    | none => some (batch, none, rest)
    | some it =>
      match pullProcess mms it with
      | none => none
      | some QItem.endSig => some (batch, some QItem.endSig, rest)
      | some QItem.flush => some (batch, some QItem.flush, rest)
      | some (QItem.record m) =>
        if bsz + msgSize m > mbs ∨ bcnt ≥ mbc ∨ p.deadlineHit
        then some (batch, some (QItem.record m), rest)
        else batchRound mms mbs mbc rest (batch ++ [m]) (bsz + msgSize m) (bcnt + 1)

/-- `cur_batch = [] if msg is None or msg == self.FLUSH else [msg]`: the
batch seeded from the leftover `msg` at the top of the outer loop. -/
def seedOf : Option QItem → List Msg
  | some (QItem.record m) => [m]
  | _ => []

/-- The outer `while msg != self.END` loop of `_dequeue_batch`, returning
the list of batches passed to `_submit_batch`.  `fuel` bounds the number
of outer iterations observed (the real loop runs until `END` arrives);
`leftover` is the `msg` variable carried over from the previous round.
`none` models a worker crash. -/
def dequeueBatches (mms mbs mbc : Int) :
    Nat → Option QItem → List Pull → Option (List (List Msg))
  | 0, _, _ => some []
  | fuel + 1, leftover, pulls =>
    if leftover = some QItem.endSig then some []
    else
      match batchRound mms mbs mbc pulls (seedOf leftover)
          (batchSize (seedOf leftover)) ((seedOf leftover).length : Int) with
      | none => none
      | some (batch, lo, rest) =>
        (dequeueBatches mms mbs mbc fuel lo rest).map (fun bs => batch :: bs)

/-- A record whose message body fits within
`max_message_size - EXTRA_MSG_PAYLOAD_SIZE`, the state of every record
after the pull-time truncation check. -/
def recBounded (mms : Int) (m : Msg) : Prop :=
  (m.message.length : Int) ≤ mms - EXTRA_MSG_PAYLOAD_SIZE

lemma truncateMsg_length (mms : Int) (m : Msg) (h26 : 26 ≤ mms) :
    ((truncateMsg mms m).message.length : Int) ≤ mms - 26 := by
  unfold truncateMsg pyStrTake maxMessageBodySize EXTRA_MSG_PAYLOAD_SIZE
  rw [if_neg (by omega)]
  show ((strTake m.message (mms - 26).toNat).length : Int) ≤ mms - 26
  rw [strTake_length]
  omega

lemma pullProcessRec_bounded (mms : Int) (m : Msg) (h26 : 26 ≤ mms) :
    recBounded mms (pullProcessRec mms m).1 := by
  unfold pullProcessRec
  split_ifs with h
  · exact truncateMsg_length mms m h26
  · unfold msgSize maxMessageBodySize EXTRA_MSG_PAYLOAD_SIZE at h
    show (m.message.length : Int) ≤ mms - EXTRA_MSG_PAYLOAD_SIZE
    unfold EXTRA_MSG_PAYLOAD_SIZE
    omega

lemma recBounded_msgSize {mms : Int} {m : Msg} (h : recBounded mms m) :
    msgSize m ≤ mms := by
  unfold recBounded EXTRA_MSG_PAYLOAD_SIZE at h
  unfold msgSize EXTRA_MSG_PAYLOAD_SIZE
  omega

lemma pullProcess_record_bounded (mms : Int) (h26 : 26 ≤ mms) (it : QItem) (m : Msg)
    (h : pullProcess mms it = some (QItem.record m)) : recBounded mms m := by
  cases it with
  | record m0 =>
    simp only [pullProcess, Option.some.injEq, QItem.record.injEq] at h
    rw [← h]
    exact pullProcessRec_bounded mms m0 h26
  | flush =>
    simp only [pullProcess] at h
    split_ifs at h
    all_goals simp_all
  | endSig =>
    simp only [pullProcess] at h
    split_ifs at h
    all_goals simp_all

lemma batchSize_append (b : List Msg) (m : Msg) :
    batchSize (b ++ [m]) = batchSize b + msgSize m := by
  simp [batchSize]

lemma batchRound_inv (mms mbs mbc : Int) (h26 : 26 ≤ mms) :
    ∀ (pulls : List Pull) (batch : List Msg) (bsz bcnt : Int)
      (out : List Msg × Option QItem × List Pull),
      bsz = batchSize batch → bcnt = (batch.length : Int) →
      batchSize batch ≤ mbs → (batch.length : Int) ≤ mbc →
      (∀ m ∈ batch, recBounded mms m) →
      batchRound mms mbs mbc pulls batch bsz bcnt = some out →
      batchSize out.1 ≤ mbs ∧ ((out.1.length : Int) ≤ mbc ∧
      (∀ m ∈ out.1, recBounded mms m) ∧
      ∀ m, out.2.1 = some (QItem.record m) → recBounded mms m) := by
  intro pulls
  induction pulls with
  | nil =>
    intro batch bsz bcnt out hsz hcnt hszle hcntle hbnd hrun
    rw [batchRound] at hrun
    cases hrun
    refine ⟨hszle, hcntle, hbnd, ?_⟩
    intro m hm
    cases hm
  | cons p rest ih =>
    intro batch bsz bcnt out hsz hcnt hszle hcntle hbnd hrun
    rw [batchRound] at hrun
    cases hp : p.item with
    | none =>
      rw [hp] at hrun
      cases hrun
      exact ⟨hszle, hcntle, hbnd, fun m hm => by cases hm⟩
    | some it =>
      rw [hp] at hrun
      dsimp only at hrun
      cases hq : pullProcess mms it with
      | none => rw [hq] at hrun; cases hrun
      | some it2 =>
        rw [hq] at hrun
        cases it2 with
        | endSig =>
          cases hrun
          exact ⟨hszle, hcntle, hbnd, fun m hm => by cases hm⟩
        | flush =>
          cases hrun
          exact ⟨hszle, hcntle, hbnd, fun m hm => by cases hm⟩
        | record m =>
          dsimp only at hrun
          have hmb : recBounded mms m := pullProcess_record_bounded mms h26 it m hq
          by_cases hc : bsz + msgSize m > mbs ∨ bcnt ≥ mbc ∨ p.deadlineHit = true
          · rw [if_pos hc] at hrun
            cases hrun
            refine ⟨hszle, hcntle, hbnd, ?_⟩
            intro m' hm'
            cases hm'
            exact hmb
          · rw [if_neg hc] at hrun
            push_neg at hc
            obtain ⟨hc1, hc2, _⟩ := hc
            refine ih (batch ++ [m]) (bsz + msgSize m) (bcnt + 1) out ?_ ?_ ?_ ?_ ?_ hrun
            · rw [batchSize_append, hsz]
            · simp [hcnt]
            · rw [batchSize_append, ← hsz]; omega
            · simp only [List.length_append, List.length_cons, List.length_nil]
              push_cast
              omega
            · intro m' hm'
              rcases List.mem_append.mp hm' with h' | h'
              · exact hbnd m' h'
              · rw [List.mem_singleton.mp h']
                exact hmb

lemma seedOf_bounded {mms : Int} {lo : Option QItem}
    (hl : ∀ m, lo = some (QItem.record m) → recBounded mms m) :
    ∀ m ∈ seedOf lo, recBounded mms m := by
  cases lo with
  | none => intro m hm; cases hm
  | some it =>
    cases it with
    | record m0 =>
      intro m hm
      rw [List.mem_singleton.mp hm]
      exact hl m0 rfl
    | flush => intro m hm; cases hm
    | endSig => intro m hm; cases hm

lemma dequeueBatches_inv (mms mbs mbc : Int) (h26 : 26 ≤ mms) (hms : mms ≤ mbs)
    (hcnt : 1 ≤ mbc) :
    ∀ (fuel : Nat) (leftover : Option QItem) (pulls : List Pull) (bs : List (List Msg)),
      (∀ m, leftover = some (QItem.record m) → recBounded mms m) →
      dequeueBatches mms mbs mbc fuel leftover pulls = some bs →
      ∀ b ∈ bs, batchSize b ≤ mbs ∧ ((b.length : Int) ≤ mbc ∧
        ∀ m ∈ b, recBounded mms m) := by
  intro fuel
  induction fuel with
  | zero =>
    intro leftover pulls bs hl hrun b hb
    rw [dequeueBatches] at hrun
    cases hrun
    cases hb
  | succ fuel ih =>
    intro leftover pulls bs hl hrun b hb
    rw [dequeueBatches] at hrun
    by_cases he : leftover = some QItem.endSig
    · rw [if_pos he] at hrun
      cases hrun
      cases hb
    · rw [if_neg he] at hrun
      cases hbr : batchRound mms mbs mbc pulls (seedOf leftover)
          (batchSize (seedOf leftover)) ((seedOf leftover).length : Int) with
      | none => rw [hbr] at hrun; cases hrun
      | some res =>
        obtain ⟨batch, lo, rest⟩ := res
        rw [hbr] at hrun
        simp only [Option.map_eq_some'] at hrun
        obtain ⟨bs', hrec, hbs⟩ := hrun
        have hseedb : ∀ m ∈ seedOf leftover, recBounded mms m := seedOf_bounded hl
        have hseedsz : batchSize (seedOf leftover) ≤ mbs := by
          cases hlo : leftover with
          | none => simp [seedOf, batchSize]; omega
          | some it =>
            cases it with
            | record m0 =>
              have := recBounded_msgSize (hl m0 (by rw [hlo]))
              simp [seedOf, batchSize]
              omega
            | flush => simp [seedOf, batchSize]; omega
            | endSig => simp [seedOf, batchSize]; omega
        have hseedcnt : ((seedOf leftover).length : Int) ≤ mbc := by
          cases hlo : leftover with
          | none => simp [seedOf]; omega
          | some it => cases it <;> simp [seedOf] <;> omega
        have hinv := batchRound_inv mms mbs mbc h26 pulls (seedOf leftover)
          (batchSize (seedOf leftover)) ((seedOf leftover).length : Int)
          (batch, lo, rest) rfl rfl hseedsz hseedcnt hseedb hbr
        subst hbs
        rcases List.mem_cons.mp hb with hb1 | hb2
        · subst hb1
          exact ⟨hinv.1, hinv.2.1, hinv.2.2.1⟩
        · exact ih lo rest bs' (hinv.2.2.2) hrec b hb2

/-- C3 (counterexample): the claim "a pulled record is truncated exactly
when its size (message bytes plus 26) exceeds max_message_size" is false.
With `max_message_size = 60`, a pulled record with a 20-character body has
size 46 ≤ 60, yet `_dequeue_batch` invokes `truncate` on it (emitting the
truncation warning), because line 410 compares the record's size against
`max_message_body_size = 34`, not against `max_message_size`. -/
theorem pull_truncation_claim_false :
    ¬ (((pullProcessRec 60 ⟨0, "aaaaaaaaaaaaaaaaaaaa"⟩).2 = true)
        ↔ msgSize ⟨0, "aaaaaaaaaaaaaaaaaaaa"⟩ > 60) := by
  decide

/-- C3 (amended): in the worker loop, a pulled record is truncated — the
truncation warning is emitted and the body replaced by its first
`max_message_size − 26` characters — exactly when its size (message bytes
plus 26) exceeds `max_message_size − 26` (not `max_message_size`); an
untruncated record passes through unchanged; since slicing only shortens
bodies longer than `max_message_size − 26`, a record whose body exceeds
`max_message_size − 26` ends with a body of exactly that length, and every
pulled record ends with a body of at most that length. -/
theorem pull_truncation_behavior (mms : Int) (m : Msg) (h26 : 26 ≤ mms) :
    ((pullProcessRec mms m).2 = true ↔ msgSize m > mms - 26) ∧
    ((pullProcessRec mms m).2 = true →
      (pullProcessRec mms m).1.message = strTake m.message (mms - 26).toNat) ∧
    ((pullProcessRec mms m).2 = false → (pullProcessRec mms m).1 = m) ∧
    ((m.message.length : Int) > mms - 26 →
      ((pullProcessRec mms m).1.message.length : Int) = mms - 26) ∧
    ((pullProcessRec mms m).1.message.length : Int) ≤ mms - 26 := by
  have hb := pullProcessRec_bounded mms m h26
  unfold recBounded EXTRA_MSG_PAYLOAD_SIZE at hb
  by_cases h : msgSize m > maxMessageBodySize mms
  · have h' : msgSize m > mms - 26 := by
      unfold maxMessageBodySize EXTRA_MSG_PAYLOAD_SIZE at h
      exact h
    refine ⟨?_, ?_, ?_, ?_, hb⟩
    · simp only [pullProcessRec, if_pos h]
      exact iff_of_true (by trivial) h'
    · intro _
      simp only [pullProcessRec, if_pos h]
      unfold truncateMsg pyStrTake maxMessageBodySize EXTRA_MSG_PAYLOAD_SIZE
      rw [if_neg (by omega)]
    · intro hfalse
      simp only [pullProcessRec, if_pos h] at hfalse
      cases hfalse
    · intro hlong
      simp only [pullProcessRec, if_pos h]
      show (((truncateMsg mms m).message.length : Nat) : Int) = mms - 26
      unfold truncateMsg pyStrTake maxMessageBodySize EXTRA_MSG_PAYLOAD_SIZE
      rw [if_neg (by omega)]
      show (((strTake m.message (mms - 26).toNat).length : Nat) : Int) = mms - 26
      rw [strTake_length]
      omega
  · have h' : ¬ msgSize m > mms - 26 := by
      unfold maxMessageBodySize EXTRA_MSG_PAYLOAD_SIZE at h
      exact h
    refine ⟨?_, ?_, ?_, ?_, hb⟩
    · simp only [pullProcessRec, if_neg h]
      exact iff_of_false (by simp) h'
    · intro htrue
      simp only [pullProcessRec, if_neg h] at htrue
      cases htrue
    · intro _
      simp only [pullProcessRec, if_neg h]
    · intro hlong
      unfold msgSize EXTRA_MSG_PAYLOAD_SIZE at h'
      omega

/-- Witness for `pull_truncation_behavior` at `max_message_size = 30` and a
10-character body (truncated to 4 characters). -/
theorem pull_truncation_behavior_witness :
    (26 : Int) ≤ 30 ∧
    (((pullProcessRec 30 ⟨0, "aaaaaaaaaa"⟩).2 = true
        ↔ msgSize ⟨0, "aaaaaaaaaa"⟩ > 30 - 26) ∧
    ((pullProcessRec 30 ⟨0, "aaaaaaaaaa"⟩).2 = true →
      (pullProcessRec 30 ⟨0, "aaaaaaaaaa"⟩).1.message
        = strTake "aaaaaaaaaa" ((30 : Int) - 26).toNat) ∧
    ((pullProcessRec 30 ⟨0, "aaaaaaaaaa"⟩).2 = false →
      (pullProcessRec 30 ⟨0, "aaaaaaaaaa"⟩).1 = ⟨0, "aaaaaaaaaa"⟩) ∧
    ((("aaaaaaaaaa".length : Int)) > 30 - 26 →
      ((pullProcessRec 30 ⟨0, "aaaaaaaaaa"⟩).1.message.length : Int) = 30 - 26) ∧
    ((pullProcessRec 30 ⟨0, "aaaaaaaaaa"⟩).1.message.length : Int) ≤ 30 - 26) :=
  ⟨by decide, pull_truncation_behavior 30 ⟨0, "aaaaaaaaaa"⟩ (by decide)⟩

/-- C1 (amended): every batch assembled by the per-stream worker loop and
handed to `_submit_batch` has total size (message length plus the 26-byte
per-record overhead, summed over records) at most `max_batch_size` and
record count at most `max_batch_count`, provided
`26 ≤ max_message_size ≤ max_batch_size` and `1 ≤ max_batch_count`.  The
one-record batch submitted synchronously by `emit` when `use_queues` is
false is subject to no size check and can violate the size bound (see
`sync_batch_size_claim_false`). -/
theorem worker_batches_bounded (mms mbs mbc : Int) (fuel : Nat) (pulls : List Pull)
    (bs : List (List Msg)) (h26 : 26 ≤ mms) (hms : mms ≤ mbs) (hbc : 1 ≤ mbc)
    (hrun : dequeueBatches mms mbs mbc fuel none pulls = some bs) :
    ∀ b ∈ bs, batchSize b ≤ mbs ∧ (b.length : Int) ≤ mbc := by
  intro b hb
  have h := dequeueBatches_inv mms mbs mbc h26 hms hbc fuel none pulls bs
    (fun m hm => by cases hm) hrun b hb
  exact ⟨h.1, h.2.1⟩

/-- Witness for `worker_batches_bounded`: one record pulled, then `END`. -/
theorem worker_batches_bounded_witness :
    batchSize [({ timestamp := 1, message := "abc" } : Msg)] ≤ 100 ∧
    (([({ timestamp := 1, message := "abc" } : Msg)].length : Int)) ≤ 2 :=
  worker_batches_bounded 53 100 2 2
    [⟨some (QItem.record ⟨1, "abc"⟩), false⟩, ⟨some QItem.endSig, false⟩]
    [[⟨1, "abc"⟩]] (by decide) (by decide) (by decide) (by decide)
    [⟨1, "abc"⟩] (by decide)

lemma batchRound_recBounded (mms mbs mbc : Int) (h26 : 26 ≤ mms) :
    ∀ (pulls : List Pull) (batch : List Msg) (bsz bcnt : Int)
      (out : List Msg × Option QItem × List Pull),
      (∀ m ∈ batch, recBounded mms m) →
      batchRound mms mbs mbc pulls batch bsz bcnt = some out →
      (∀ m ∈ out.1, recBounded mms m) ∧
      ∀ m, out.2.1 = some (QItem.record m) → recBounded mms m := by
  intro pulls
  induction pulls with
  | nil =>
    intro batch bsz bcnt out hbnd hrun
    rw [batchRound] at hrun
    cases hrun
    exact ⟨hbnd, fun m hm => by cases hm⟩
  | cons p rest ih =>
    intro batch bsz bcnt out hbnd hrun
    rw [batchRound] at hrun
    cases hp : p.item with
    | none =>
      rw [hp] at hrun
      cases hrun
      exact ⟨hbnd, fun m hm => by cases hm⟩
    | some it =>
      rw [hp] at hrun
      dsimp only at hrun
      cases hq : pullProcess mms it with
      | none => rw [hq] at hrun; cases hrun
      | some it2 =>
        rw [hq] at hrun
        cases it2 with
        | endSig =>
          cases hrun
          exact ⟨hbnd, fun m hm => by cases hm⟩
        | flush =>
          cases hrun
          exact ⟨hbnd, fun m hm => by cases hm⟩
        | record m =>
          dsimp only at hrun
          have hmb : recBounded mms m := pullProcess_record_bounded mms h26 it m hq
          by_cases hc : bsz + msgSize m > mbs ∨ bcnt ≥ mbc ∨ p.deadlineHit = true
          · rw [if_pos hc] at hrun
            cases hrun
            refine ⟨hbnd, ?_⟩
            intro m' hm'
            cases hm'
            exact hmb
          · rw [if_neg hc] at hrun
            refine ih (batch ++ [m]) (bsz + msgSize m) (bcnt + 1) out ?_ hrun
            intro m' hm'
            rcases List.mem_append.mp hm' with h' | h'
            · exact hbnd m' h'
            · rw [List.mem_singleton.mp h']
              exact hmb

lemma dequeueBatches_recBounded (mms mbs mbc : Int) (h26 : 26 ≤ mms) :
    ∀ (fuel : Nat) (leftover : Option QItem) (pulls : List Pull) (bs : List (List Msg)),
      (∀ m, leftover = some (QItem.record m) → recBounded mms m) →
      dequeueBatches mms mbs mbc fuel leftover pulls = some bs →
      ∀ b ∈ bs, ∀ m ∈ b, recBounded mms m := by
  intro fuel
  induction fuel with
  | zero =>
    intro leftover pulls bs hl hrun b hb
    rw [dequeueBatches] at hrun
    cases hrun
    cases hb
  | succ fuel ih =>
    intro leftover pulls bs hl hrun b hb
    rw [dequeueBatches] at hrun
    by_cases he : leftover = some QItem.endSig
    · rw [if_pos he] at hrun
      cases hrun
      cases hb
    · rw [if_neg he] at hrun
      cases hbr : batchRound mms mbs mbc pulls (seedOf leftover)
          (batchSize (seedOf leftover)) ((seedOf leftover).length : Int) with
      | none => rw [hbr] at hrun; cases hrun
      | some res =>
        obtain ⟨batch, lo, rest⟩ := res
        rw [hbr] at hrun
        simp only [Option.map_eq_some'] at hrun
        obtain ⟨bs', hrec, hbs⟩ := hrun
        have hinv := batchRound_recBounded mms mbs mbc h26 pulls (seedOf leftover)
          (batchSize (seedOf leftover)) ((seedOf leftover).length : Int)
          (batch, lo, rest) (seedOf_bounded hl) hbr
        subst hbs
        rcases List.mem_cons.mp hb with hb1 | hb2
        · subst hb1
          exact hinv.1
        · exact ih lo rest bs' hinv.2 hrec b hb2

/-- C4 (amended): when `use_queues` is enabled, every record delivered by
the worker loop carries a message of length at most `max_message_size`
(indeed at most `max_message_size − 26`), because every pulled record
passes the truncation check before entering a batch — for any
`max_batch_size` and `max_batch_count`.  When `use_queues` is disabled,
`emit` submits the message unmodified with no size check, and the claim
fails (see `sync_message_size_claim_false`). -/
theorem worker_messages_bounded (mms mbs mbc : Int) (fuel : Nat) (pulls : List Pull)
    (bs : List (List Msg)) (h26 : 26 ≤ mms)
    (hrun : dequeueBatches mms mbs mbc fuel none pulls = some bs) :
    ∀ b ∈ bs, ∀ m ∈ b,
      (m.message.length : Int) ≤ mms - 26 ∧ (m.message.length : Int) ≤ mms := by
  intro b hb m hm
  have h := dequeueBatches_recBounded mms mbs mbc h26 fuel none pulls bs
    (fun m hm => by cases hm) hrun b hb m hm
  unfold recBounded EXTRA_MSG_PAYLOAD_SIZE at h
  exact ⟨h, by omega⟩

/-- Witness for `worker_messages_bounded`: one record pulled, then `END`,
with `max_batch_size = 1000` smaller than `max_message_size`. -/
theorem worker_messages_bounded_witness :
    (((({ timestamp := 1, message := "abc" } : Msg)).message.length : Int))
      ≤ 262144 - 26 ∧
    (((({ timestamp := 1, message := "abc" } : Msg)).message.length : Int)) ≤ 262144 :=
  worker_messages_bounded 262144 1000 2 2
    [⟨some (QItem.record ⟨1, "abc"⟩), false⟩, ⟨some QItem.endSig, false⟩]
    [[⟨1, "abc"⟩]] (by decide) (by decide)
    [⟨1, "abc"⟩] (by decide) ⟨1, "abc"⟩ (by decide)

/-! ## The admission path `emit` (claims C1, C4, C7, C9) -/

/-- The inputs `emit` draws from the `logging.LogRecord` and the handler's
collaborators, with fallible Python calls modelled as `Except`:
`getMessage` is `message.getMessage()` (evaluated by the empty-message
check, before the `try` block; in Python it raises e.g. on a msg/args
format mismatch), `streamName` is `self._get_stream_name(message)` and
`formatted` is `self.format(message)` (both evaluated inside the `try`
block).  `createdMs` is `int(message.created * 1000)`. -/
structure LogRecordInput where
  getMessage : Except Unit String
  streamName : Except Unit String
  formatted : Except Unit String
  createdMs : Int

/-- What one call to `emit` did with the record. -/
inductive EmitAction where
  | droppedReentrancy
  | warnedEmpty
  | warnedShutdown
  | queued (stream : String) (m : Msg)
  | syncSubmit (stream : String) (batch : List Msg)
  | handledError
  | raised
  deriving DecidableEq, Repr

/-- The handler attributes read and written by `emit` and `close`. -/
structure HandlerState where
  creatingLogStream : Bool
  shuttingDown : Bool
  queues : List String
  sequenceTokenKeys : List String
  deriving DecidableEq, Repr

/-- Lines 366–367 of `emit`:
`if stream_name not in self.sequence_tokens: self.sequence_tokens[stream_name] = None`. -/
def ensureTokenKey (stream : String) (st : HandlerState) : HandlerState :=
  if stream ∈ st.sequenceTokenKeys then st
  else { st with sequenceTokenKeys := stream :: st.sequenceTokenKeys }

/-- Lines 372–379 of `emit`: lazily create the stream's queue and start
its worker thread when the stream has no queue yet. -/
def ensureQueue (stream : String) (st : HandlerState) : HandlerState :=
  if stream ∈ st.queues then st
  else { st with queues := stream :: st.queues }

lemma ensureTokenKey_shuttingDown (stream : String) (st : HandlerState) :
    (ensureTokenKey stream st).shuttingDown = st.shuttingDown := by
  unfold ensureTokenKey
  split
  · rfl
  · rfl

lemma ensureQueue_shuttingDown (stream : String) (st : HandlerState) :
    (ensureQueue stream st).shuttingDown = st.shuttingDown := by
  unfold ensureQueue
  split
  · rfl
  · rfl

/-- `CloudWatchLogHandler.emit` (lines 355–387).  The reentrancy check and
the empty-message check run before the `try` block; everything from
stream-name resolution on is inside it, and an exception there lands in
`except Exception: self.handleError(message)`.  With `use_queues` false
the one-record batch `[cwl_message]` goes to `_submit_batch` directly,
with no truncation and no size check. -/
def emit (useQueues : Bool) (st : HandlerState) (r : LogRecordInput) :
    HandlerState × EmitAction :=
  if st.creatingLogStream then (st, .droppedReentrancy)
  else
    match r.getMessage with
    | .error _ => (st, .raised)
    | .ok msgText =>
      if msgText = "" then (st, .warnedEmpty)
      else
        match r.streamName with
        | .error _ => (st, .handledError)
        | .ok stream =>
          match r.formatted with
          | .error _ => (ensureTokenKey stream st, .handledError)
          | .ok text =>
            let m : Msg := { timestamp := r.createdMs, message := text }
            if useQueues then
              let st2 := ensureQueue stream (ensureTokenKey stream st)
              if st2.shuttingDown then (st2, .warnedShutdown)
              else (st2, .queued stream m)
            else (ensureTokenKey stream st, .syncSubmit stream [m])

/-- C1 (counterexample): the claim fails for the one-record batch submitted
synchronously when queuing is disabled.  With `max_batch_size = 30`, `emit`
with `use_queues = False` hands `_submit_batch` a one-record batch of
total size 40 + 26 = 66 > 30: the synchronous path performs no size
check at all. -/
theorem sync_batch_size_claim_false :
    (emit false ⟨false, false, [], []⟩
        ⟨.ok "x", .ok "s", .ok (String.mk (List.replicate 40 'a')), 0⟩).2
      = .syncSubmit "s" [⟨0, String.mk (List.replicate 40 'a')⟩] ∧
    ¬ batchSize [⟨0, String.mk (List.replicate 40 'a')⟩] ≤ 30 := by
  decide

/-- C4 (counterexample): the claim fails when `use_queues` is disabled.
With `max_message_size = 30`, `emit` with `use_queues = False` submits a
40-character message unmodified — no truncation happens outside the
worker loop. -/
theorem sync_message_size_claim_false :
    (emit false ⟨false, false, [], []⟩
        ⟨.ok "x", .ok "s", .ok (String.mk (List.replicate 40 'a')), 7⟩).2
      = .syncSubmit "s" [⟨7, String.mk (List.replicate 40 'a')⟩] ∧
    ¬ (((String.mk (List.replicate 40 'a')).length : Int) ≤ 30) := by
  decide

/-- C7 (counterexample): "after close(), admissions perform no network I/O
and only produce a warning, for all configurations" is false: with
`use_queues = False`, `emit` never consults `shutting_down` and submits
the record synchronously to the remote API even after `close()` has set
`shutting_down = true`. -/
theorem post_close_claim_false :
    (emit false ⟨false, true, [], []⟩ ⟨.ok "hello", .ok "s", .ok "hello", 0⟩).2
      = .syncSubmit "s" [⟨0, "hello"⟩] := by
  decide

/-- C7 (amended): after `close()` (`shutting_down = true`), when
`use_queues` is enabled an admission never queues a record and never
submits one to the remote API, and a record that passes the reentrancy and
empty-message checks and resolves without error is dropped with the
post-shutdown warning.  With `use_queues` disabled the claim fails
(`post_close_claim_false`). -/
theorem post_close_drops_when_queued (st : HandlerState) (r : LogRecordInput)
    (hsd : st.shuttingDown = true) :
    (∀ s m, (emit true st r).2 ≠ .queued s m) ∧
    (∀ s b, (emit true st r).2 ≠ .syncSubmit s b) ∧
    (st.creatingLogStream = false →
      ∀ msgText, r.getMessage = .ok msgText → msgText ≠ "" →
      ∀ stream, r.streamName = .ok stream →
      ∀ text, r.formatted = .ok text →
      (emit true st r).2 = .warnedShutdown) := by
  unfold emit
  by_cases hc : st.creatingLogStream = true
  · rw [if_pos hc]
    exact ⟨fun s m h => (nomatch h), fun s b h => (nomatch h),
      fun hcf => absurd hc (fun hx => by rw [hcf] at hx; cases hx)⟩
  · rw [if_neg hc]
    cases hg : r.getMessage with
    | error e =>
      exact ⟨fun s m h => (nomatch h), fun s b h => (nomatch h),
        fun _ msgText hmt => Except.noConfusion hmt⟩
    | ok msgText =>
      dsimp only
      by_cases hm : msgText = ""
      · rw [if_pos hm]
        refine ⟨fun s m h => (nomatch h), fun s b h => (nomatch h), ?_⟩
        intro _ msgText' hmt' hne
        cases hmt'
        exact absurd hm hne
      · rw [if_neg hm]
        cases hs : r.streamName with
        | error e =>
          exact ⟨fun s m h => (nomatch h), fun s b h => (nomatch h),
            fun _ _ _ _ stream hst => Except.noConfusion hst⟩
        | ok stream =>
          dsimp only
          cases hf : r.formatted with
          | error e =>
            exact ⟨fun s m h => (nomatch h), fun s b h => (nomatch h),
              fun _ _ _ _ _ _ text htx => Except.noConfusion htx⟩
          | ok text =>
            dsimp only
            have h2 : (ensureQueue stream (ensureTokenKey stream st)).shuttingDown
                = true := by
              rw [ensureQueue_shuttingDown, ensureTokenKey_shuttingDown, hsd]
            rw [if_pos rfl, if_pos h2]
            exact ⟨fun s m h => (nomatch h), fun s b h => (nomatch h),
              fun _ _ _ _ _ _ _ _ => rfl⟩

/-- Witness for `post_close_drops_when_queued`: a post-shutdown admission
of a well-formed record is dropped with the shutdown warning. -/
theorem post_close_drops_when_queued_witness :
    (∀ s m, (emit true ⟨false, true, ["s"], ["s"]⟩
        ⟨.ok "hello", .ok "s", .ok "hello", 0⟩).2 ≠ .queued s m) ∧
    (∀ s b, (emit true ⟨false, true, ["s"], ["s"]⟩
        ⟨.ok "hello", .ok "s", .ok "hello", 0⟩).2 ≠ .syncSubmit s b) ∧
    ((⟨false, true, ["s"], ["s"]⟩ : HandlerState).creatingLogStream = false →
      ∀ msgText, (Except.ok (ε := Unit) "hello") = .ok msgText → msgText ≠ "" →
      ∀ stream, (Except.ok (ε := Unit) "s") = .ok stream →
      ∀ text, (Except.ok (ε := Unit) "hello") = .ok text →
      (emit true ⟨false, true, ["s"], ["s"]⟩
        ⟨.ok "hello", .ok "s", .ok "hello", 0⟩).2 = .warnedShutdown) :=
  post_close_drops_when_queued ⟨false, true, ["s"], ["s"]⟩
    ⟨.ok "hello", .ok "s", .ok "hello", 0⟩ rfl

/-- C9 (counterexample): the claim "emit never raises into the calling
application" is false as stated: the empty-message check at line 359 calls
`message.getMessage()` before the `try` block, so an exception raised
while rendering the message (e.g. a msg/args format mismatch) propagates
to the caller. -/
theorem emit_raises_claim_false :
    (emit true ⟨false, false, [], []⟩ ⟨.error (), .ok "s", .ok "x", 0⟩).2
      = .raised := by
  decide

/-- C9 (amended): whenever `message.getMessage()` evaluates without
raising, `emit` propagates no exception: any exception in the admission
path from stream-name resolution onwards is caught by the
`except Exception` handler and routed to `self.handleError`.  The claim as
stated fails only for exceptions raised by the empty-message check itself,
which runs before the `try` block (`emit_raises_claim_false`). -/
theorem emit_no_raise_after_validation (useQueues : Bool) (st : HandlerState)
    (r : LogRecordInput) (s : String) (hok : r.getMessage = .ok s) :
    (emit useQueues st r).2 ≠ .raised := by
  unfold emit
  by_cases hc : st.creatingLogStream = true
  · rw [if_pos hc]
    intro h
    cases h
  · rw [if_neg hc, hok]
    dsimp only
    by_cases hm : s = ""
    · rw [if_pos hm]
      intro h
      cases h
    · rw [if_neg hm]
      cases r.streamName with
      | error e =>
        intro h
        cases h
      | ok stream =>
        dsimp only
        cases r.formatted with
        | error e =>
          intro h
          cases h
        | ok text =>
          dsimp only
          by_cases hu : useQueues = true
          · rw [if_pos hu]
            by_cases hsd : (ensureQueue stream (ensureTokenKey stream st)).shuttingDown
                = true
            · rw [if_pos hsd]
              intro h
              cases h
            · rw [if_neg hsd]
              intro h
              cases h
          · rw [if_neg hu]
            intro h
            cases h

/-- Witness for `emit_no_raise_after_validation`. -/
theorem emit_no_raise_after_validation_witness :
    (emit true ⟨false, false, [], []⟩ ⟨.ok "hello", .ok "s", .ok "hello", 0⟩).2
      ≠ .raised :=
  emit_no_raise_after_validation true ⟨false, false, [], []⟩
    ⟨.ok "hello", .ok "s", .ok "hello", 0⟩ "hello" rfl

/-! ## `close` (claim C8) -/

/-- The observable result of one call to `CloudWatchLogHandler.close`
(lines 445–462): the new handler state, the queues that had the `END`
sentinel pushed, the queues blocked on (`q.join()`, the drain barrier),
and whether `logging.Handler.close` ran. -/
structure CloseResult where
  state : HandlerState
  endPushedTo : List String
  joinedOn : List String
  superClosed : Bool
  deriving DecidableEq, Repr

/-- `CloudWatchLogHandler.close`: if `shutting_down` is already set it
returns at once; otherwise it sets `shutting_down`, pushes `END` to every
queue, joins every queue, then calls `super().close()`.  (The
`addFilter(_boto_filter)` call affects only log filtering and is not
modelled.) -/
def close (st : HandlerState) : CloseResult :=
  if st.shuttingDown then ⟨st, [], [], false⟩
  else ⟨{ st with shuttingDown := true }, st.queues, st.queues, true⟩

/-- C8: `close()` is idempotent: from a running state the first call flips
`shutting_down` from false to true, pushes `END` to every active stream
queue and blocks on each queue's drain barrier; a second call leaves the
state unchanged, pushes no `END` and blocks on nothing (it returns
immediately). -/
theorem close_idempotent (st : HandlerState) (h : st.shuttingDown = false) :
    (close st).state.shuttingDown = true ∧
    (close st).endPushedTo = st.queues ∧
    (close st).joinedOn = st.queues ∧
    close ((close st).state) = ⟨(close st).state, [], [], false⟩ := by
  simp [close, h]

/-- Witness for `close_idempotent`. -/
theorem close_idempotent_witness :
    (close ⟨false, false, ["a", "b"], []⟩).state.shuttingDown = true ∧
    (close ⟨false, false, ["a", "b"], []⟩).endPushedTo = ["a", "b"] ∧
    (close ⟨false, false, ["a", "b"], []⟩).joinedOn = ["a", "b"] ∧
    close ((close ⟨false, false, ["a", "b"], []⟩).state)
      = ⟨(close ⟨false, false, ["a", "b"], []⟩).state, [], [], false⟩ :=
  close_idempotent ⟨false, false, ["a", "b"], []⟩ rfl

/-! ## The retry loop and response handling of `_submit_batch`
(claims C5, C6, C10) -/

/-- Exceptions a `put_log_events` call can raise, as distinguished by the
`except` clauses of `_submit_batch`.  The token-conflict errors carry
`e.response["Error"]["Message"]`. -/
inductive CwlError where
  | dataAlreadyAccepted (errMessage : String)
  | invalidSequenceToken (errMessage : String)
  | resourceNotFound
  | otherClientError
  | otherException
  deriving DecidableEq, Repr

/-- The remote API's response to one successful `put_log_events` call:
whether `nextSequenceToken` is present (and its value) and whether
`rejectedLogEventsInfo` is present. -/
structure PutResponse where
  nextSequenceToken : Option String
  rejectedInfo : Bool
  deriving DecidableEq, Repr

/-- The outcome of one `put_log_events` attempt. -/
inductive PutOutcome where
  | success (resp : PutResponse)
  | failure (e : CwlError)
  deriving DecidableEq, Repr

/-- The observable effects of the retry loop, in order:
`putLogEvents tok` is a `put_log_events` call whose kwargs carry
`sequenceToken = tok` (`none` = the field is absent); `guardSet` /
`guardCleared` are the writes to `self.creating_log_stream`;
`createLogStreamCall` is `_idempotent_call("create_log_stream", ...)`;
`deliveryWarning` is a "Failed to deliver logs" warning. -/
inductive SubmitEvent where
  | putLogEvents (sequenceToken : Option String)
  | guardSet
  | createLogStreamCall
  | guardCleared
  | deliveryWarning
  deriving DecidableEq, Repr

/-- `e.response["Error"]["Message"].rsplit(" ", 1)[-1]`: the part of the
error message after its last space (the whole string when it has no
space). -/
def lastWord (s : String) : String := (s.splitOn " ").getLastD s

/-- The outcome of the client call wrapped by `_idempotent_call`. -/
inductive IdemOutcome where
  | ok
  | operationAborted
  | resourceAlreadyExists
  | raises
  deriving DecidableEq, Repr

/-- `_idempotent_call(method, ...)`: performs the call and swallows
`OperationAbortedException` and `ResourceAlreadyExistsException`; any
other exception propagates. -/
def idempotentCall : IdemOutcome → Except Unit Unit
  | .ok => .ok ()
  | .operationAborted => .ok ()
  | .resourceAlreadyExists => .ok ()
  | .raises => .error ()

/-- The `for retry in range(max_retries)` loop of `_submit_batch`
(lines 309–341).  `script i` is what the i-th `put_log_events` call does;
`fuel` is the number of remaining loop iterations; `tok` is the current
`sequenceToken` entry of `kwargs` (`none` = absent); `createLogStream` is
`self.create_log_stream`.  Returns the events in order and the final
`response` (`none` when every retry failed).  On
`DataAlreadyAcceptedException` / `InvalidSequenceTokenException` the
corrected token is `rsplit(" ", 1)[-1]` of the error message, and the
literal `"null"` means the `sequenceToken` field is removed; on
`ResourceNotFoundException` with `create_log_stream` the guard is set,
the stream is created idempotently, the guard cleared (`finally`), and
the `sequenceToken` field removed before the retry. -/
def submitRetryLoop (createLogStream : Bool) (script : Nat → PutOutcome) :
    Nat → Nat → Option String → List SubmitEvent × Option PutResponse
  | 0, _, _ => ([], none)
  | fuel + 1, i, tok =>
    match script i with
    | .success resp => ([.putLogEvents tok], some resp)
    | .failure (.dataAlreadyAccepted errMsg) =>
      let nextExpected := lastWord errMsg
      let tok2 := if nextExpected = "null" then none else some nextExpected
      let r := submitRetryLoop createLogStream script fuel (i + 1) tok2
      (.putLogEvents tok :: r.1, r.2)
    | .failure (.invalidSequenceToken errMsg) =>
      let nextExpected := lastWord errMsg
      let tok2 := if nextExpected = "null" then none else some nextExpected
      let r := submitRetryLoop createLogStream script fuel (i + 1) tok2
      (.putLogEvents tok :: r.1, r.2)
    | .failure .resourceNotFound =>
      if createLogStream then
        let r := submitRetryLoop createLogStream script fuel (i + 1) none
        (.putLogEvents tok :: .guardSet :: .createLogStreamCall :: .guardCleared
          :: r.1, r.2)
      else
        let r := submitRetryLoop createLogStream script fuel (i + 1) tok
        (.putLogEvents tok :: r.1, r.2)
    | .failure .otherClientError =>
      let r := submitRetryLoop createLogStream script fuel (i + 1) tok
      (.putLogEvents tok :: .deliveryWarning :: r.1, r.2)
    | .failure .otherException =>
      let r := submitRetryLoop createLogStream script fuel (i + 1) tok
      (.putLogEvents tok :: .deliveryWarning :: r.1, r.2)

/-- Lines 343–349 of `_submit_batch`: the final `response` handling.
Returns the stream's stored sequence token after the call together with
whether the "Failed to deliver logs" warning was emitted.  A `None`
response (retries exhausted) or a response containing
`rejectedLogEventsInfo` warns and leaves the stored token alone; otherwise
a present `nextSequenceToken` is adopted. -/
def processResponse (storedToken : Option String) (response : Option PutResponse) :
    Option String × Bool :=
  match response with
  | none => (storedToken, true)
  | some resp =>
    if resp.rejectedInfo then (storedToken, true)
    else
      match resp.nextSequenceToken with
      | some t => (some t, false)
      | none => (storedToken, false)

/-- `_submit_batch(batch, log_stream_name)` end to end: an empty batch
returns at once; otherwise the batch is sorted, the stored token attached
(`kwargs` gets `sequenceToken` iff the stored token is not `None`), the
retry loop runs with `max_retries` iterations, and the response updates
the stored token.  Returns the sorted batch, the events, the new stored
token and the warning flag. -/
def submitBatch (createLogStream : Bool) (maxRetries : Nat)
    (storedToken : Option String) (batch : List Msg)
    (script : Nat → PutOutcome) :
    List Msg × List SubmitEvent × Option String × Bool :=
  if batch.length < 1 then ([], [], storedToken, false)
  else
    let r := submitRetryLoop createLogStream script maxRetries 0 storedToken
    let pr := processResponse storedToken r.2
    (sortByTimestamp batch, r.1, pr.1, pr.2)

lemma submitRetryLoop_head (c : Bool) (script : Nat → PutOutcome) (fuel i : Nat)
    (tok : Option String) (h : 1 ≤ fuel) :
    ∃ rest, (submitRetryLoop c script fuel i tok).1
      = SubmitEvent.putLogEvents tok :: rest := by
  obtain ⟨f, rfl⟩ : ∃ f, fuel = f + 1 := ⟨fuel - 1, by omega⟩
  rw [submitRetryLoop]
  cases hs : script i with
  | success resp => exact ⟨[], rfl⟩
  | failure e =>
    cases e with
    | dataAlreadyAccepted errMsg => exact ⟨_, rfl⟩
    | invalidSequenceToken errMsg => exact ⟨_, rfl⟩
    | resourceNotFound =>
      by_cases hc : c = true
      · rw [if_pos hc]
        exact ⟨_, rfl⟩
      · rw [if_neg hc]
        exact ⟨_, rfl⟩
    | otherClientError => exact ⟨_, rfl⟩
    | otherException => exact ⟨_, rfl⟩

/-- C5: when a `put_log_events` attempt fails with
`ResourceNotFoundException` and `create_log_stream` is enabled, the
handler sets the `creating_log_stream` reentrancy guard, calls
`create_log_stream` through `_idempotent_call` (which tolerates
`ResourceAlreadyExistsException`), clears the guard, removes the
`sequenceToken` field, and retries — so the retried submission carries no
sequence token. -/
theorem stream_not_found_recovery (script : Nat → PutOutcome) (fuel i : Nat)
    (tok : Option String) (hs : script i = .failure .resourceNotFound)
    (hfuel : 2 ≤ fuel) :
    (∃ rest, (submitRetryLoop true script fuel i tok).1
      = SubmitEvent.putLogEvents tok :: SubmitEvent.guardSet
        :: SubmitEvent.createLogStreamCall :: SubmitEvent.guardCleared
        :: SubmitEvent.putLogEvents none :: rest) ∧
    idempotentCall IdemOutcome.resourceAlreadyExists = Except.ok () := by
  refine ⟨?_, rfl⟩
  obtain ⟨f, rfl⟩ : ∃ f, fuel = f + 1 := ⟨fuel - 1, by omega⟩
  rw [submitRetryLoop, hs]
  dsimp only
  rw [if_pos rfl]
  obtain ⟨rest, hrest⟩ := submitRetryLoop_head true script f (i + 1) none (by omega)
  exact ⟨rest, by rw [hrest]⟩

/-- Witness for `stream_not_found_recovery`: the first attempt hits
"stream not found", the second succeeds. -/
theorem stream_not_found_recovery_witness :
    (∃ rest, (submitRetryLoop true
        (fun i => if i = 0 then .failure .resourceNotFound
          else .success ⟨some "tok9", false⟩) 5 0 (some "tok1")).1
      = SubmitEvent.putLogEvents (some "tok1") :: SubmitEvent.guardSet
        :: SubmitEvent.createLogStreamCall :: SubmitEvent.guardCleared
        :: SubmitEvent.putLogEvents none :: rest) ∧
    idempotentCall IdemOutcome.resourceAlreadyExists = Except.ok () :=
  stream_not_found_recovery
    (fun i => if i = 0 then .failure .resourceNotFound
      else .success ⟨some "tok9", false⟩) 5 0 (some "tok1") (by decide) (by decide)

/-- C6: when an attempt fails with `DataAlreadyAcceptedException` or
`InvalidSequenceTokenException`, the corrected token parsed from the error
payload (the word after the last space of the error message) is adopted
for the retried call; when that corrected value is the sentinel string
`"null"`, the retried call omits the `sequenceToken` field entirely. -/
theorem stale_token_recovery (c : Bool) (script : Nat → PutOutcome) (fuel i : Nat)
    (tok : Option String) (errMsg : String)
    (hs : script i = .failure (.invalidSequenceToken errMsg)
      ∨ script i = .failure (.dataAlreadyAccepted errMsg))
    (hfuel : 2 ≤ fuel) :
    ∃ rest, (submitRetryLoop c script fuel i tok).1
      = SubmitEvent.putLogEvents tok
        :: SubmitEvent.putLogEvents
          (if lastWord errMsg = "null" then none else some (lastWord errMsg))
        :: rest := by
  obtain ⟨f, rfl⟩ : ∃ f, fuel = f + 1 := ⟨fuel - 1, by omega⟩
  obtain ⟨rest, hrest⟩ := submitRetryLoop_head c script f (i + 1)
    (if lastWord errMsg = "null" then none else some (lastWord errMsg)) (by omega)
  cases hs with
  | inl h =>
    rw [submitRetryLoop, h]
    dsimp only
    exact ⟨rest, by rw [hrest]⟩
  | inr h =>
    rw [submitRetryLoop, h]
    dsimp only
    exact ⟨rest, by rw [hrest]⟩

/-- Witness for `stale_token_recovery`: the server reports the corrected
token `"null"`, so the retried call carries no token field. -/
theorem stale_token_recovery_witness :
    ∃ rest, (submitRetryLoop true
        (fun i => if i = 0
          then .failure (.invalidSequenceToken
            "The next expected sequenceToken is: null")
          else .success ⟨some "tok2", false⟩) 5 0 (some "stale")).1
      = SubmitEvent.putLogEvents (some "stale")
        :: SubmitEvent.putLogEvents
          (if lastWord "The next expected sequenceToken is: null" = "null" then none
            else some (lastWord "The next expected sequenceToken is: null"))
        :: rest :=
  stale_token_recovery true
    (fun i => if i = 0
      then .failure (.invalidSequenceToken "The next expected sequenceToken is: null")
      else .success ⟨some "tok2", false⟩) 5 0 (some "stale")
    "The next expected sequenceToken is: null" (Or.inl (by decide)) (by decide)

/-- C10: when the response to a batch submission contains
`rejectedLogEventsInfo`, `_submit_batch` emits the delivery warning and
leaves the stream's stored sequence token unchanged — even when the same
response also carries a `nextSequenceToken`. -/
theorem rejected_info_preserves_token (storedToken : Option String)
    (nt : Option String) :
    processResponse storedToken (some ⟨nt, true⟩) = (storedToken, true) := by
  rw [processResponse]
  rw [if_pos rfl]

end Watchtower
